import Mathlib

/-!
Verification of the h5xx chunked/unique dataset engine (src/h5xx/group.hpp).

The engine sits above the HDF5 capability set.  We shallowly embed the
functions of the combined header (group.hpp part: existence probes and
group creation; dataset.hpp part: create/write/read for chunked and
unique datasets) as pure Lean functions over an explicit dataset state.

Modelling conventions:
* `hsize_t` extents become `Nat`; the `H5S_UNLIMITED` sentinel for a
  maximum extent becomes `Option Nat` with `none` = unlimited, and the
  `H5S_UNLIMITED` default index argument of `write_dataset` becomes
  `Option Nat` with `none` = append.
* `ssize_t` read indices become `Int` (mathematical integers; the C++
  values never approach the 64-bit boundary in any claim considered).
* C++ exceptions become `Except H5Err`.  `H5Err.outOfRange` is the
  runtime_error "index out of bounds" thrown by this layer;
  `H5Err.fixedSize` is the runtime_error "fixed-size dataset cannot be
  extended"; `H5Err.shapeMismatch` the "incompatible dataspace" errors;
  `H5Err.writeErr` / `H5Err.readErr` model exceptions of the underlying
  HDF5 layer that this layer propagates or converts.
* A dataset's on-disk state is its dataspace (current extents, maximum
  extents), its creation properties (chunk shape, deflate level) and its
  contents, grouped into axis-0 slabs (`records`), each slab a flat
  row-major list of elements.
-/

namespace H5xx

/-- Error kinds surfaced by the engine (section 7 taxonomy of the spec,
restricted to the ones the embedded functions can produce). -/
inductive H5Err where
  | shapeMismatch
  | outOfRange
  | fixedSize
  | writeErr
  | readErr
  | creationErr
deriving DecidableEq

/-- State of one HDF5 dataset as visible to this layer: dataspace current
extents `dim`, maximum extents `maxdim` (`none` = H5S_UNLIMITED),
creation-time chunk shape and deflate level, and the stored contents as a
list of axis-0 slabs (for a chunked dataset of rank r+1, one slab = one
record of `dim.tail.prod` elements; for a unique dataset the whole value
is a single slab). -/
structure DataSet (α : Type) where
  dim : List Nat
  maxdim : List (Option Nat)
  chunk : Option (List Nat)
  deflate : Option Nat
  records : List (List α)
deriving DecidableEq

deriving instance DecidableEq for Except

/-- Source line 120: `enum { compression_level = 6 };` -/
def compression_level : Nat := 6

/-- Embeds `create_dataset<T, rank>` (chunked case, source lines 128-166):
`dim[0] = (max_size == H5S_UNLIMITED) ? 0 : max_size`, `max_dim[0] =
max_size`, `chunk_dim[0] = 1`, remaining axes copied from `shape`
(`rank = shape.length`); `setDeflate(compression_level)` always.  When the
current extent starts at a finite `max_size`, HDF5 materialises that many
fill-valued records, modelled with `default`. -/
def create_dataset (α : Type) [Inhabited α]
    (shape : List Nat) (max_size : Option Nat) : DataSet α :=
  let dim0 : Nat := match max_size with
    | none => 0
    | some m => m
  { dim := dim0 :: shape
    maxdim := max_size :: shape.map some
    chunk := some (1 :: shape)
    deflate := some compression_level
    records := List.replicate dim0 (List.replicate shape.prod default) }

/-- Embeds `create_unique_dataset<T, rank>` (source lines 175-206): a
dataspace of exactly `shape` (`rank = shape.length`); chunked layout and
deflate are enabled only under `rank > 0 && sizeof(T) * shape[0] > 64`,
with chunk shape equal to `shape` itself.  `sizeofT` stands for
`sizeof(T)` in bytes. -/
def create_unique_dataset (α : Type) [Inhabited α]
    (sizeofT : Nat) (shape : List Nat) : DataSet α :=
  if 0 < shape.length ∧ 64 < sizeofT * shape.headD 0 then
    { dim := shape
      maxdim := shape.map some
      chunk := some shape
      deflate := some compression_level
      records := [List.replicate shape.prod default] }
  else
    { dim := shape
      maxdim := shape.map some
      chunk := none
      deflate := none
      records := [List.replicate shape.prod default] }

/-- The maximum-extent check performed by `H5Dset_extent` inside
`dataset.extend`: growing axis 0 to `newLen` succeeds iff the maximum
extent is unlimited or at least `newLen`. -/
def can_extend (maxdim0 : Option Nat) (newLen : Nat) : Bool :=
  match maxdim0 with
  | none => true
  | some m => newLen ≤ m

/-- Embeds `write_dataset<T, rank>` (source lines 213-253).  Checks
`has_rank<rank+1>`; reads the current extents; `start[0] = dim[0]`.  If
`index` is the append sentinel (`none`), increments `dim[0]` and calls
`dataset.extend`, converting the HDF5 exception into the fixed-size error;
the hyperslab then covers the freshly created slab at offset `len`.
Otherwise `start[0] = index` with no bounds check in this layer; the final
`dataset.write` call of the source is modelled by the slab update, and it
fails with a propagated HDF5 exception (`H5Err.writeErr`) exactly when the
selected slab `[index, index+1)` lies outside the current extent.  The
`data` argument is the flat memory buffer of one record. -/
def write_dataset (α : Type) [Inhabited α] (rank : Nat) (ds : DataSet α)
    (data : List α) (index : Option Nat) : Except H5Err (DataSet α) :=
  if ds.dim.length = rank + 1 then
    let len := ds.dim.headD 0
    match index with
    | none =>
      if can_extend (ds.maxdim.headD none) (len + 1) then
        Except.ok { ds with
          dim := (len + 1) :: ds.dim.tail
          records :=
            (ds.records ++ [List.replicate ds.dim.tail.prod default]).set len data }
      else Except.error H5Err.fixedSize
    | some i =>
      if i < len then
        Except.ok { ds with records := ds.records.set i data }
      else Except.error H5Err.writeErr
  else Except.error H5Err.shapeMismatch

/-- Embeds `read_dataset<T, rank>` (source lines 282-322).  Checks
`has_rank<rank+1>`; `len = dim[0]` as a signed value; rejects
`index >= len || -index > len` with the "index out of bounds" error;
resolves a negative index to `index + len`; selects the slab at the
resolved offset and reads it (the wrapped `dataset.read`, whose failure is
converted to `H5Err.readErr`); returns the resolved index together with
the record read into the caller's buffer. -/
def read_dataset (α : Type) (rank : Nat) (ds : DataSet α) (index : Int) :
    Except H5Err (Nat × List α) :=
  if ds.dim.length = rank + 1 then
    let len : Int := (ds.dim.headD 0 : Nat)
    if index ≥ len ∨ -index > len then Except.error H5Err.outOfRange
    else
      let idx : Int := if index < 0 then index + len else index
      match ds.records.get? idx.toNat with
      | some r => Except.ok (idx.toNat, r)
      | none => Except.error H5Err.readErr
  else Except.error H5Err.shapeMismatch

/-- Models `std::vector::resize(n)`: keep the first `n` elements, value-initialise
any new ones. -/
def listResize (l : List α) (n : Nat) (fill : α) : List α :=
  l.take n ++ List.replicate (n - l.length) fill

/-- Embeds the vector-of-scalars overload of `read_dataset` (source lines
669-687).  Checks `has_rank<2>`, reads the extents, resizes the output
vector to `dim[1]` BEFORE delegating to `read_dataset<value_type, 1>`
(whose bounds check may still fail), and returns the resolved index
together with the final contents of the output vector: the record on
success, the resized previous contents on failure. -/
def read_dataset_vector (α : Type) [Inhabited α] (ds : DataSet α)
    (out : List α) (index : Int) : (Except H5Err Nat) × List α :=
  if ds.dim.length = 2 then
    let d1 := (ds.dim.drop 1).headD 0
    let out2 := listResize out d1 default
    match read_dataset α 1 ds index with
    | Except.ok p => (Except.ok p.1, p.2)
    | Except.error e => (Except.error e, out2)
  else (Except.error H5Err.shapeMismatch, out)

/-- Appends the values `vs` in order with `write_dataset (index = APPEND)`,
stopping at the first failure. -/
def write_all (α : Type) [Inhabited α] (rank : Nat) (ds : DataSet α) :
    List (List α) → Except H5Err (DataSet α)
  | [] => Except.ok ds
  | v :: vs =>
    match write_dataset α rank ds v none with
    | Except.ok ds2 => write_all α rank ds2 vs
    | Except.error e => Except.error e

/-! ## File-level model for the existence probes and group creation

The probes of the source act on a file/group location and on the HDF5
error machinery, so we model the few HDF5 entry points they use as
explicit state transitions on a file: the set of group links, the set of
dataset links, and a counter of default-error-handler firings (what
`H5E_BEGIN_TRY` suppresses). -/

/-- Link tables of a file (or of a group location): named groups and named
datasets reachable from it. -/
structure H5Loc where
  groups : List String
  dsets : List String
deriving DecidableEq

/-- A file together with the observable effect of HDF5's default error
reporting: `errors_printed` counts how many times the default error
handler fired. -/
structure H5State where
  loc : H5Loc
  errors_printed : Nat
deriving DecidableEq

/-- Models `H5Gopen`: returns a positive handle iff the group link exists;
on failure the default error handler fires unless the call is wrapped in
`H5E_BEGIN_TRY` (`suppress = true`).  Never changes the link tables. -/
def h5Gopen (suppress : Bool) (s : H5State) (name : String) :
    Int × H5State :=
  if s.loc.groups.contains name then (1, s)
  else (-1, if suppress then s
            else { s with errors_printed := s.errors_printed + 1 })

/-- Models `H5Dopen`: as `h5Gopen` but for dataset links. -/
def h5Dopen (suppress : Bool) (s : H5State) (name : String) :
    Int × H5State :=
  if s.loc.dsets.contains name then (1, s)
  else (-1, if suppress then s
            else { s with errors_printed := s.errors_printed + 1 })

/-- Models `H5Gcreate` with the create-intermediate-group property: registers the
group path (the intermediate groups it also creates are not separately
probed by any claim, so only the full path is recorded); fails if the name
is already taken by a dataset link. -/
def h5Gcreate (s : H5State) (path : String) : Int × H5State :=
  if s.loc.dsets.contains path then (-1, s)
  else (1, { s with loc := { s.loc with groups := path :: s.loc.groups } })

/-- Models `H5Ldelete` wrapped in `H5E_BEGIN_TRY` (the delete-then-recreate idiom
of both create functions, source lines 152-155 and 192-195): removes the
link if present; absence is silently ignored. -/
def h5Ldelete (s : H5State) (name : String) : H5State :=
  { s with loc := { groups := s.loc.groups.erase name
                    dsets := s.loc.dsets.erase name } }

/-- Embeds `exists_group` (source lines 31-42): `H5E_BEGIN_TRY { hid =
H5Gopen(...); if (hid > 0) H5Gclose(hid); }` then `return hid > 0`.
`H5Gclose` releases the transient handle and does not touch the file. -/
def exists_group (s : H5State) (name : String) : Bool × H5State :=
  let p := h5Gopen true s name
  (0 < p.1, p.2)

/-- Embeds `exists_dataset` (source lines 107-118), same shape as
`exists_group` with `H5Dopen`/`H5Dclose`. -/
def exists_dataset (s : H5State) (name : String) : Bool × H5State :=
  let p := h5Dopen true s name
  (0 < p.1, p.2)

/-- Embeds `open_group` (source lines 49-64): suppressed open first; on
failure, `H5Gcreate` with the intermediate-group property; if that also
fails, throw the creation error.  Returns the opened/created group
(modelled by its path) and the new state. -/
def open_group (s : H5State) (path : String) :
    Except H5Err (String × H5State) :=
  let p := h5Gopen true s path
  if 0 < p.1 then Except.ok (path, p.2)
  else
    let q := h5Gcreate p.2 path
    if 0 < q.1 then Except.ok (path, q.2)
    else Except.error H5Err.creationErr

/-- File-level effect of `create_dataset` (source lines 152-165): the
suppressed `H5Ldelete` of a possibly pre-existing link, then `H5Dcreate`
registers the dataset link (after the delete the name is free, so the
create step succeeds; its failure branch depends on external conditions
outside this model). -/
def create_dataset_link (s : H5State) (name : String) : H5State :=
  let s1 := h5Ldelete s name
  { s1 with loc := { s1.loc with dsets := name :: s1.loc.dsets } }

/-! ## Helper lemmas -/

/-- Setting the position just past `l` inside `l ++ [a]` replaces `a`. -/
theorem set_append_length {α : Type} (l : List α) (a v : α) :
    (l ++ [a]).set l.length v = l ++ [v] := by
  induction l with
  | nil => rfl
  | cons x xs ih => simp [ih]

/-- A nonempty list of extents is its head consed onto its tail. -/
theorem headD_cons_tail (l : List Nat) (h : l ≠ []) :
    l.headD 0 :: l.tail = l := by
  cases l with
  | nil => exact absurd rfl h
  | cons x xs => rfl

/-- Indexing a replicated list below its length yields the repeated value. -/
theorem get?_replicate_of_lt {α : Type} (a : α) (m i : Nat) (h : i < m) :
    (List.replicate m a).get? i = some a := by
  induction m generalizing i with
  | zero => omega
  | succ n ih =>
    cases i with
    | zero => rfl
    | succ j => exact ih j (by omega)

/-- An append against a dataset whose axis-0 maximum extent is unlimited
succeeds and stores the record behind the previous last slab. -/
theorem write_append_ok (α : Type) [Inhabited α] (rank : Nat)
    (ds : DataSet α) (v : List α)
    (hr : ds.dim.length = rank + 1)
    (hl : ds.records.length = ds.dim.headD 0)
    (hm : ds.maxdim.headD none = none) :
    write_dataset α rank ds v none =
      Except.ok { dim := (ds.dim.headD 0 + 1) :: ds.dim.tail
                  maxdim := ds.maxdim
                  chunk := ds.chunk
                  deflate := ds.deflate
                  records := ds.records ++ [v] } := by
  unfold write_dataset
  rw [if_pos hr]
  simp only [hm, can_extend, if_pos]
  rw [← hl, set_append_length]

/-- Appending a whole list of records to a dataset whose axis-0 maximum
extent is unlimited succeeds, grows axis 0 by the number of records, and
concatenates them behind the existing slabs. -/
theorem write_all_ok (α : Type) [Inhabited α] (rank : Nat)
    (vs : List (List α)) :
    ∀ ds : DataSet α, ds.dim.length = rank + 1 →
      ds.records.length = ds.dim.headD 0 →
      ds.maxdim.headD none = none →
      write_all α rank ds vs =
        Except.ok { dim := (ds.dim.headD 0 + vs.length) :: ds.dim.tail
                    maxdim := ds.maxdim
                    chunk := ds.chunk
                    deflate := ds.deflate
                    records := ds.records ++ vs } := by
  induction vs with
  | nil =>
    intro ds hr hl hm
    have hne : ds.dim ≠ [] := by
      intro h
      rw [h] at hr
      simp at hr
    simp only [write_all, List.length_nil, Nat.add_zero, List.append_nil]
    rw [headD_cons_tail ds.dim hne]
  | cons v vs ih =>
    intro ds hr hl hm
    have hstep := write_append_ok α rank ds v hr hl hm
    have h1 : ((ds.dim.headD 0 + 1) :: ds.dim.tail).length = rank + 1 := by
      have := List.length_tail ds.dim
      simp only [List.length_cons]
      omega
    have h2 : (ds.records ++ [v]).length =
        (((ds.dim.headD 0 + 1) :: ds.dim.tail)).headD 0 := by
      simp [hl]
    have hmain := ih
      { dim := (ds.dim.headD 0 + 1) :: ds.dim.tail
        maxdim := ds.maxdim
        chunk := ds.chunk
        deflate := ds.deflate
        records := ds.records ++ [v] } h1 h2 hm
    calc write_all α rank ds (v :: vs)
        = write_all α rank
            { dim := (ds.dim.headD 0 + 1) :: ds.dim.tail
              maxdim := ds.maxdim
              chunk := ds.chunk
              deflate := ds.deflate
              records := ds.records ++ [v] } vs := by
          simp only [write_all, hstep]
      _ = Except.ok
            { dim := (ds.dim.headD 0 + (v :: vs).length) :: ds.dim.tail
              maxdim := ds.maxdim
              chunk := ds.chunk
              deflate := ds.deflate
              records := ds.records ++ v :: vs } := by
          rw [hmain]
          simp only [List.headD_cons, List.tail_cons, List.length_cons]
          rw [← List.append_cons]
          have harith : ds.dim.headD 0 + 1 + vs.length =
              ds.dim.headD 0 + (vs.length + 1) := by omega
          rw [harith]

/-- Reading at an in-range non-negative index returns that index and the
slab stored there. -/
theorem read_nonneg_ok (α : Type) (rank : Nat) (ds : DataSet α)
    (i : Nat) (r : List α)
    (hr : ds.dim.length = rank + 1)
    (hlen : ds.records.length = ds.dim.headD 0)
    (hget : ds.records.get? i = some r) :
    read_dataset α rank ds (i : Int) = Except.ok (i, r) := by
  have hi : i < ds.dim.headD 0 := by
    rw [← hlen]
    by_contra hc
    push_neg at hc
    rw [List.get?_eq_none.mpr hc] at hget
    cases hget
  unfold read_dataset
  rw [if_pos hr]
  have hguard : ¬((i : Int) ≥ ((ds.dim.headD 0 : Nat) : Int) ∨
      -(i : Int) > ((ds.dim.headD 0 : Nat) : Int)) := by
    push_neg
    omega
  rw [if_neg hguard]
  have hnneg : ¬((i : Int) < 0) := by omega
  simp only [if_neg hnneg, Int.toNat_natCast, hget]

/-- Reading at an in-range negative index resolves it against the length
and returns the slab stored at the resolved offset. -/
theorem read_neg_ok (α : Type) (rank : Nat) (ds : DataSet α)
    (index : Int) (r : List α)
    (hr : ds.dim.length = rank + 1)
    (hlen : ds.records.length = ds.dim.headD 0)
    (hneg : index < 0)
    (hge : -((ds.dim.headD 0 : Nat) : Int) ≤ index)
    (hget : ds.records.get? (index + ((ds.dim.headD 0 : Nat) : Int)).toNat
      = some r) :
    read_dataset α rank ds index =
      Except.ok ((index + ((ds.dim.headD 0 : Nat) : Int)).toNat, r) := by
  unfold read_dataset
  rw [if_pos hr]
  have hguard : ¬(index ≥ ((ds.dim.headD 0 : Nat) : Int) ∨
      -index > ((ds.dim.headD 0 : Nat) : Int)) := by
    push_neg
    omega
  rw [if_neg hguard]
  simp only [if_pos hneg, hget]

/-! ## Claim theorems -/

/-- C6: for a value of rank r (shape of length r), the chunked
`create_dataset` builds a dataspace of rank r+1 whose axis-0 current
extent is 0 when `max_records` is unlimited and `max_records` when
finite, whose axis-0 maximum extent is `max_records` (or unlimited),
whose chunk shape is `[1, shape...]`, and always enables compression at
the fixed level 6. -/
theorem create_chunked_layout (α : Type) [Inhabited α]
    (shape : List Nat) (m : Nat) :
    (create_dataset α shape none).dim = 0 :: shape ∧
    (create_dataset α shape (some m)).dim = m :: shape ∧
    (create_dataset α shape none).dim.length = shape.length + 1 ∧
    (create_dataset α shape (some m)).dim.length = shape.length + 1 ∧
    (create_dataset α shape none).maxdim = none :: shape.map some ∧
    (create_dataset α shape (some m)).maxdim = some m :: shape.map some ∧
    (create_dataset α shape none).chunk = some (1 :: shape) ∧
    (create_dataset α shape (some m)).chunk = some (1 :: shape) ∧
    (create_dataset α shape none).deflate = some compression_level ∧
    (create_dataset α shape (some m)).deflate = some compression_level ∧
    compression_level = 6 :=
  ⟨rfl, rfl, rfl, rfl, rfl, rfl, rfl, rfl, rfl, rfl, rfl⟩

/-- C7 counterexample: a rank-2 value whose total on-disk byte size
(8 bytes per element times 400 elements = 3200 bytes) far exceeds 64
bytes is nonetheless stored unchunked and uncompressed, because the
source tests `sizeof(T) * shape[0] > 64` with the first axis extent only
(8 * 4 = 32 is not above 64), not the product of all extents as the
claim states. -/
theorem unique_threshold_counterexample :
    64 < 8 * ([4, 100] : List Nat).prod ∧
    (create_unique_dataset Nat 8 [4, 100]).chunk = none ∧
    (create_unique_dataset Nat 8 [4, 100]).deflate = none := by
  decide

/-- C7 amended: `create_unique_dataset` enables chunked layout and
compression exactly when the rank is positive and the element size times
the FIRST axis extent exceeds 64 bytes; in particular every rank-0
scalar is stored unchunked and uncompressed. -/
theorem unique_chunking_condition (α : Type) [Inhabited α]
    (sizeofT : Nat) (shape : List Nat) :
    ((create_unique_dataset α sizeofT shape).chunk = some shape ↔
      0 < shape.length ∧ 64 < sizeofT * shape.headD 0) ∧
    ((create_unique_dataset α sizeofT shape).deflate = some compression_level ↔
      0 < shape.length ∧ 64 < sizeofT * shape.headD 0) ∧
    (create_unique_dataset α sizeofT shape).dim = shape := by
  unfold create_unique_dataset
  split <;> simp_all

/-- C9: the existence probes compute pure membership: they return the
boolean presence of the link, leave the file and the error-reporting
state untouched even in the not-found case (the probing open runs under
suppressed default error reporting), and report true immediately after a
successful create of that group or dataset. -/
theorem exists_probe_pure (s : H5State) (name path dname : String) :
    (exists_group s name).1 = s.loc.groups.contains name ∧
    (exists_group s name).2 = s ∧
    (exists_dataset s name).1 = s.loc.dsets.contains name ∧
    (exists_dataset s name).2 = s ∧
    (∀ g s', open_group s path = Except.ok (g, s') →
      (exists_group s' path).1 = true) ∧
    (exists_dataset (create_dataset_link s dname) dname).1 = true := by
  refine ⟨?_, ?_, ?_, ?_, ?_, ?_⟩
  · unfold exists_group h5Gopen
    split <;> simp_all
  · unfold exists_group h5Gopen
    split <;> simp_all
  · unfold exists_dataset h5Dopen
    split <;> simp_all
  · unfold exists_dataset h5Dopen
    split <;> simp_all
  · intro g s' h
    unfold open_group h5Gopen h5Gcreate at h
    by_cases hmem : path ∈ s.loc.groups
    · simp [hmem] at h
      obtain ⟨h1, h2⟩ := h
      subst h2
      unfold exists_group h5Gopen
      simp [hmem]
    · by_cases hd : path ∈ s.loc.dsets
      · simp [hmem, hd] at h
      · simp [hmem, hd] at h
        obtain ⟨h1, h2⟩ := h
        subst h2
        unfold exists_group h5Gopen
        simp
  · unfold exists_dataset h5Dopen create_dataset_link
    simp

/-- C9 witness: starting from a concrete empty file, the group created by
open_group and the dataset registered by the create step both probe as
existing immediately afterwards. -/
theorem exists_probe_pure_witness :
    (exists_group (⟨⟨["p"], []⟩, 0⟩ : H5State) "p").1 = true ∧
    (exists_dataset (create_dataset_link (⟨⟨[], []⟩, 0⟩ : H5State) "d")
      "d").1 = true :=
  ⟨(exists_probe_pure ⟨⟨[], []⟩, 0⟩ "a" "p" "d").2.2.2.2.1 "p"
      ⟨⟨["p"], []⟩, 0⟩ rfl,
   (exists_probe_pure ⟨⟨[], []⟩, 0⟩ "a" "p" "d").2.2.2.2.2⟩

/-- C10: a `write_dataset` call with an explicit (non-append) index never
changes the dataspace extents: whenever it succeeds, the whole extents
list (axis-0 length included) is exactly what it was before the call. -/
theorem explicit_write_preserves_extents (α : Type) [Inhabited α]
    (rank : Nat) (ds ds' : DataSet α) (v : List α) (i : Nat)
    (h : write_dataset α rank ds v (some i) = Except.ok ds') :
    ds'.dim = ds.dim := by
  unfold write_dataset at h
  split at h
  · split at h
    · rename_i heq
      simp at heq
    · rename_i m heq
      injection heq with heq
      subst heq
      dsimp only at h
      split at h
      · injection h with h
        subst h
        rfl
      · simp at h
  · simp at h

/-- C10 witness: writing at the explicit index 0 of a preallocated
two-record dataset succeeds and leaves the extents unchanged. -/
theorem explicit_write_preserves_extents_witness :
    ({ dim := [2], maxdim := [some 2], chunk := some [1],
       deflate := some 6,
       records := [[7], [0]] } : DataSet Nat).dim =
      (create_dataset Nat [] (some 2)).dim :=
  explicit_write_preserves_extents Nat 0 (create_dataset Nat [] (some 2))
    { dim := [2], maxdim := [some 2], chunk := some [1],
      deflate := some 6, records := [[7], [0]] } [7] 0 (by decide)

/-- C3 counterexample: writing at the explicit out-of-range index 5 of a
chunked dataset of length 2 fails, but with the propagated error of the
underlying raw write (the source performs no bounds check on the explicit
branch and does not catch the resulting HDF5 exception), not with this
layer's OutOfRange error, contrary to the claim. -/
theorem write_oob_error_kind :
    write_dataset Nat 0 (create_dataset Nat [] (some 2)) [7] (some 5) =
      Except.error H5Err.writeErr ∧
    write_dataset Nat 0 (create_dataset Nat [] (some 2)) [7] (some 5) ≠
      Except.error H5Err.outOfRange := by
  decide

/-- C3 amended: an explicit (non-append) index is treated as an absolute
record offset with no negative-index support (the argument is unsigned);
the write fails whenever `index ≥ len`, but with the underlying layer's
propagated write error rather than this layer's OutOfRange, and succeeds
below `len`, overwriting exactly the selected record. -/
theorem write_explicit_bounds (α : Type) [Inhabited α] (rank : Nat)
    (ds : DataSet α) (v : List α) (i : Nat)
    (hr : ds.dim.length = rank + 1) :
    (ds.dim.headD 0 ≤ i →
      write_dataset α rank ds v (some i) = Except.error H5Err.writeErr) ∧
    (i < ds.dim.headD 0 →
      write_dataset α rank ds v (some i) =
        Except.ok { ds with records := ds.records.set i v }) := by
  unfold write_dataset
  rw [if_pos hr]
  dsimp only
  constructor
  · intro hge
    rw [if_neg (by omega)]
  · intro hlt
    rw [if_pos hlt]

/-- C3 amended witness: both branches exercised on a concrete
preallocated dataset of length 2. -/
theorem write_explicit_bounds_witness :
    write_dataset Nat 0 (create_dataset Nat [] (some 2)) [7] (some 5) =
      Except.error H5Err.writeErr ∧
    write_dataset Nat 0 (create_dataset Nat [] (some 2)) [7] (some 0) =
      Except.ok { create_dataset Nat [] (some 2) with
                  records := (create_dataset Nat [] (some 2)).records.set 0 [7] } :=
  ⟨(write_explicit_bounds Nat 0 (create_dataset Nat [] (some 2)) [7] 5
      (by decide)).1 (by decide),
   (write_explicit_bounds Nat 0 (create_dataset Nat [] (some 2)) [7] 0
      (by decide)).2 (by decide)⟩

/-- C4 counterexample: with `max_records = 1` the claim asserts that the
first append succeeds, but the code sets the axis-0 current extent to
`max_records` already at creation, so the very first append attempts to
extend past the maximum extent and fails with the fixed-size error. -/
theorem first_append_fails_when_finite :
    write_dataset Nat 0 (create_dataset Nat [] (some 1)) [7] none =
      Except.error H5Err.fixedSize := by
  decide

/-- C4 amended: creating a chunked dataset with finite `max_records = m`
preallocates the dataset full: the axis-0 current extent is already `m`,
EVERY append (the first included) fails with the fixed-size error, and
each of the `m` preallocated (fill-valued) records is independently
readable by index. -/
theorem finite_max_preallocates (α : Type) [Inhabited α]
    (shape : List Nat) (m : Nat) (v : List α) :
    (create_dataset α shape (some m)).dim.headD 0 = m ∧
    write_dataset α shape.length (create_dataset α shape (some m)) v none =
      Except.error H5Err.fixedSize ∧
    (∀ i : Nat, i < m →
      read_dataset α shape.length (create_dataset α shape (some m)) (i : Int) =
        Except.ok (i, List.replicate shape.prod (default : α))) := by
  refine ⟨rfl, ?_, ?_⟩
  · have hr0 : (create_dataset α shape (some m)).dim.length = shape.length + 1 := by
      simp [create_dataset]
    unfold write_dataset
    rw [if_pos hr0]
    dsimp only
    rw [if_neg ?hcx]
    case hcx =>
      simp [create_dataset, can_extend]
  · intro i hi
    exact read_nonneg_ok α shape.length (create_dataset α shape (some m)) i
      (List.replicate shape.prod default) rfl (by simp [create_dataset])
      (get?_replicate_of_lt _ m i hi)

/-- C4 amended witness: with m = 2, the extent is 2 at creation, the
first append already fails, and record 1 reads back as the fill value. -/
theorem finite_max_preallocates_witness :
    (create_dataset Nat [] (some 2)).dim.headD 0 = 2 ∧
    write_dataset Nat 0 (create_dataset Nat [] (some 2)) [9] none =
      Except.error H5Err.fixedSize ∧
    read_dataset Nat 0 (create_dataset Nat [] (some 2)) (1 : Int) =
      Except.ok (1, List.replicate ([] : List Nat).prod (default : Nat)) :=
  ⟨(finite_max_preallocates Nat [] 2 [9]).1,
   (finite_max_preallocates Nat [] 2 [9]).2.1,
   (finite_max_preallocates Nat [] 2 [9]).2.2 1 (by decide)⟩

/-- C5: an append against a chunked dataset with room to grow increases
the axis-0 extent by exactly one, leaves every other extent unchanged,
and stores the value in the newly created slot at offset `len` (the
pre-append length). -/
theorem append_extends_by_one (α : Type) [Inhabited α] (rank : Nat)
    (ds : DataSet α) (v : List α)
    (hr : ds.dim.length = rank + 1)
    (hl : ds.records.length = ds.dim.headD 0)
    (hgrow : can_extend (ds.maxdim.headD none) (ds.dim.headD 0 + 1) = true) :
    ∃ ds' : DataSet α,
      write_dataset α rank ds v none = Except.ok ds' ∧
      ds'.dim.headD 0 = ds.dim.headD 0 + 1 ∧
      ds'.dim.tail = ds.dim.tail ∧
      ds'.records.get? (ds.dim.headD 0) = some v := by
  refine ⟨{ dim := (ds.dim.headD 0 + 1) :: ds.dim.tail
            maxdim := ds.maxdim
            chunk := ds.chunk
            deflate := ds.deflate
            records := ds.records ++ [v] }, ?_, rfl, rfl, ?_⟩
  · unfold write_dataset
    rw [if_pos hr]
    dsimp only
    rw [if_pos hgrow]
    rw [← hl, set_append_length]
  · rw [← hl]
    exact List.get?_concat_length ds.records v

/-- C5 witness: appending to an empty unlimited scalar dataset grows the
extent from 0 to 1 and stores the value at offset 0. -/
theorem append_extends_by_one_witness :
    ∃ ds' : DataSet Nat,
      write_dataset Nat 0 (create_dataset Nat [] none) [5] none =
        Except.ok ds' ∧
      ds'.dim.headD 0 = (create_dataset Nat [] none).dim.headD 0 + 1 ∧
      ds'.dim.tail = (create_dataset Nat [] none).dim.tail ∧
      ds'.records.get? ((create_dataset Nat [] none).dim.headD 0) = some [5] :=
  append_extends_by_one Nat 0 (create_dataset Nat [] none) [5]
    (by decide) (by decide) (by decide)

/-- C8 counterexample: a failed out-of-range read through the
vector-of-scalars overload does modify the output argument.  The dataset
(built by the engine itself: one append of a 5-element record to a fresh
unlimited dataset of record shape [5]) has length 1, so reading at
index 1 fails with OutOfRange — but the output vector of size 3 has
already been resized to 5 (old elements kept, new slots
value-initialised), because the overload resizes before the bounds check
runs in the inner reader. -/
theorem read_fail_resizes_output :
    write_dataset Nat 1 (create_dataset Nat [5] none) [10, 11, 12, 13, 14]
        none =
      Except.ok { dim := [1, 5], maxdim := [none, some 5],
                  chunk := some [1, 5], deflate := some 6,
                  records := [[10, 11, 12, 13, 14]] } ∧
    read_dataset_vector Nat
        { dim := [1, 5], maxdim := [none, some 5], chunk := some [1, 5],
          deflate := some 6, records := [[10, 11, 12, 13, 14]] }
        [7, 8, 9] 1 =
      (Except.error H5Err.outOfRange, [7, 8, 9, 0, 0]) ∧
    ([7, 8, 9, 0, 0] : List Nat) ≠ [7, 8, 9] := by
  decide

/-- C8 amended: reading a chunked dataset of length n at index n or at
index -(n+1) fails with OutOfRange and no record data is transferred;
however, for the runtime-resizable vector overload the output argument is
not left unmodified: it is resized to the dataset's per-record extent
before the index check, so a failed call returns the resized previous
contents. -/
theorem read_out_of_range_behavior (α : Type) [Inhabited α] (rank : Nat)
    (ds : DataSet α) (out : List α)
    (hr : ds.dim.length = rank + 1) :
    read_dataset α rank ds ((ds.dim.headD 0 : Nat) : Int) =
      Except.error H5Err.outOfRange ∧
    read_dataset α rank ds (-((ds.dim.headD 0 : Nat) : Int) - 1) =
      Except.error H5Err.outOfRange ∧
    (rank = 1 →
      read_dataset_vector α ds out ((ds.dim.headD 0 : Nat) : Int) =
        (Except.error H5Err.outOfRange,
          listResize out ((ds.dim.drop 1).headD 0) default) ∧
      read_dataset_vector α ds out (-((ds.dim.headD 0 : Nat) : Int) - 1) =
        (Except.error H5Err.outOfRange,
          listResize out ((ds.dim.drop 1).headD 0) default)) := by
  have h1 : read_dataset α rank ds ((ds.dim.headD 0 : Nat) : Int) =
      Except.error H5Err.outOfRange := by
    unfold read_dataset
    rw [if_pos hr, if_pos (Or.inl (le_refl _))]
  have h2 : read_dataset α rank ds (-((ds.dim.headD 0 : Nat) : Int) - 1) =
      Except.error H5Err.outOfRange := by
    unfold read_dataset
    rw [if_pos hr, if_pos (Or.inr (by omega))]
  refine ⟨h1, h2, ?_⟩
  intro hrank
  subst hrank
  constructor
  · unfold read_dataset_vector
    rw [if_pos hr]
    dsimp only
    rw [h1]
  · unfold read_dataset_vector
    rw [if_pos hr]
    dsimp only
    rw [h2]

/-- Concrete length-2 dataset of record shape [3] used to exercise the
out-of-range read behavior. -/
def dsW : DataSet Nat :=
  { dim := [2, 3], maxdim := [none, some 3], chunk := some [1, 3],
    deflate := some 6, records := [[1, 2, 3], [4, 5, 6]] }

/-- C8 amended witness: reads at 2 and -3 against a length-2 dataset
fail with OutOfRange, and the vector overload returns the output resized
from one element to the record extent 3. -/
theorem read_out_of_range_behavior_witness :
    read_dataset Nat 1 dsW 2 = Except.error H5Err.outOfRange ∧
    read_dataset Nat 1 dsW (-3) = Except.error H5Err.outOfRange ∧
    read_dataset_vector Nat dsW [9] 2 =
      (Except.error H5Err.outOfRange, [9, 0, 0]) ∧
    read_dataset_vector Nat dsW [9] (-3) =
      (Except.error H5Err.outOfRange, [9, 0, 0]) := by
  have h := read_out_of_range_behavior Nat 1 dsW [9] (by decide)
  exact ⟨h.1, h.2.1, (h.2.2 rfl).1, (h.2.2 rfl).2⟩

/-- C2: against a chunked dataset of matching rank whose axis-0 extent is
len (with a record stored in every slot), read_dataset fails with
OutOfRange exactly when the index lies outside [-len, len); an in-range
negative index resolves to len + index; and on success the returned
value is the resolved absolute index, which lies in [0, len). -/
theorem read_index_contract (α : Type) (rank : Nat) (ds : DataSet α)
    (index : Int)
    (hr : ds.dim.length = rank + 1)
    (hlen : ds.records.length = ds.dim.headD 0) :
    (read_dataset α rank ds index = Except.error H5Err.outOfRange ↔
      ¬(-((ds.dim.headD 0 : Nat) : Int) ≤ index ∧
        index < ((ds.dim.headD 0 : Nat) : Int))) ∧
    (∀ i r, read_dataset α rank ds index = Except.ok (i, r) →
      ((i : Int) =
        if index < 0 then index + ((ds.dim.headD 0 : Nat) : Int)
        else index) ∧
      i < ds.dim.headD 0) := by
  by_cases hg : index ≥ ((ds.dim.headD 0 : Nat) : Int) ∨
      -index > ((ds.dim.headD 0 : Nat) : Int)
  · have hread : read_dataset α rank ds index =
        Except.error H5Err.outOfRange := by
      unfold read_dataset
      rw [if_pos hr, if_pos hg]
    refine ⟨?_, ?_⟩
    · rw [hread]
      constructor
      · intro _ hc
        omega
      · intro _
        rfl
    · intro i r hir
      rw [hread] at hir
      exact absurd hir (by simp)
  · push_neg at hg
    obtain ⟨hlt, hle⟩ := hg
    by_cases hneg : index < 0
    · have h0 : (0 : Int) ≤ index + ((ds.dim.headD 0 : Nat) : Int) := by
        omega
      have hlt2 : (index + ((ds.dim.headD 0 : Nat) : Int)).toNat <
          ds.records.length := by
        rw [hlen]
        omega
      have hget := List.get?_eq_get hlt2
      have hread := read_neg_ok α rank ds index _ hr hlen hneg (by omega) hget
      refine ⟨?_, ?_⟩
      · rw [hread]
        constructor
        · intro hco
          exact absurd hco (by simp)
        · intro hc
          exact absurd ⟨by omega, by omega⟩ hc
      · intro i r hir
        rw [hread] at hir
        injection hir with hir
        injection hir with hi hr2
        subst hi
        subst hr2
        constructor
        · rw [if_pos hneg]
          exact Int.toNat_of_nonneg h0
        · omega
    · have h0 : (0 : Int) ≤ index := by omega
      have hcast : ((index.toNat : Nat) : Int) = index :=
        Int.toNat_of_nonneg h0
      have hlt2 : index.toNat < ds.records.length := by
        rw [hlen]
        omega
      have hget := List.get?_eq_get hlt2
      have hread := read_nonneg_ok α rank ds index.toNat _ hr hlen hget
      rw [hcast] at hread
      refine ⟨?_, ?_⟩
      · rw [hread]
        constructor
        · intro hco
          exact absurd hco (by simp)
        · intro hc
          exact absurd ⟨by omega, by omega⟩ hc
      · intro i r hir
        rw [hread] at hir
        injection hir with hir
        injection hir with hi hr2
        subst hi
        subst hr2
        constructor
        · rw [if_neg hneg]
          exact hcast
        · omega

/-- C2 witness: against the length-2 dataset dsW, the successful read at
-1 returns the resolved index 1 = len + (-1), which is in range, and
reading at 2 = len is rejected as out of range. -/
theorem read_index_contract_witness :
    (((1 : Nat) : Int) =
      (if (-1 : Int) < 0 then -1 + ((dsW.dim.headD 0 : Nat) : Int)
       else -1) ∧
      1 < dsW.dim.headD 0) ∧
    read_dataset Nat 1 dsW 2 = Except.error H5Err.outOfRange :=
  ⟨(read_index_contract Nat 1 dsW (-1) (by decide) (by decide)).2
      1 [4, 5, 6] (by decide),
   (read_index_contract Nat 1 dsW 2 (by decide) (by decide)).1.mpr
      (by decide)⟩

/-- C1: appending same-shaped values v0, ..., v(n-1) in order to a
freshly created unlimited chunked dataset succeeds, and reading the
resulting dataset at each index i in [0, n) yields vi in the same order;
reading at -1 yields v(n-1) and reading at -n yields v0. -/
theorem chunked_append_roundtrip (α : Type) [Inhabited α]
    (shape : List Nat) (vs : List (List α))
    (hshape : ∀ v ∈ vs, v.length = shape.prod) :
    ∃ ds : DataSet α,
      write_all α shape.length (create_dataset α shape none) vs =
        Except.ok ds ∧
      (∀ i : Nat, ∀ v, vs.get? i = some v →
        read_dataset α shape.length ds (i : Int) = Except.ok (i, v)) ∧
      (∀ v, vs.get? (vs.length - 1) = some v →
        read_dataset α shape.length ds (-1) =
          Except.ok (vs.length - 1, v)) ∧
      (∀ v, vs.get? 0 = some v →
        read_dataset α shape.length ds (-(vs.length : Int)) =
          Except.ok (0, v)) := by
  have hds : write_all α shape.length (create_dataset α shape none) vs =
      Except.ok { dim := vs.length :: shape
                  maxdim := none :: shape.map some
                  chunk := some (1 :: shape)
                  deflate := some compression_level
                  records := vs } := by
    rw [write_all_ok α shape.length vs (create_dataset α shape none)
      (by simp [create_dataset]) (by simp [create_dataset])
      (by simp [create_dataset])]
    simp [create_dataset]
  refine ⟨_, hds, ?_, ?_, ?_⟩
  · intro i v hget
    exact read_nonneg_ok α shape.length _ i v (by simp) (by simp) hget
  · intro v hget
    have hne : vs ≠ [] := by
      rintro rfl
      simp at hget
    have hpos : 0 < vs.length := List.length_pos.mpr hne
    have htn : ((-1 : Int) + ((vs.length : Nat) : Int)).toNat =
        vs.length - 1 := by
      omega
    have hget2 : vs.get? (((-1 : Int) + ((vs.length : Nat) : Int)).toNat) =
        some v := by
      rw [htn]
      exact hget
    have hres := read_neg_ok α shape.length
      { dim := vs.length :: shape
        maxdim := none :: shape.map some
        chunk := some (1 :: shape)
        deflate := some compression_level
        records := vs } (-1) v
      (by simp) (by simp) (by norm_num)
      (by simp only [List.headD_cons]; omega) hget2
    dsimp only [List.headD_cons] at hres
    rw [htn] at hres
    exact hres
  · intro v hget
    have hne : vs ≠ [] := by
      rintro rfl
      simp at hget
    have hpos : 0 < vs.length := List.length_pos.mpr hne
    have htn : ((-(vs.length : Int)) + ((vs.length : Nat) : Int)).toNat =
        0 := by
      omega
    have hget2 : vs.get?
        (((-(vs.length : Int)) + ((vs.length : Nat) : Int)).toNat) =
        some v := by
      rw [htn]
      exact hget
    have hres := read_neg_ok α shape.length
      { dim := vs.length :: shape
        maxdim := none :: shape.map some
        chunk := some (1 :: shape)
        deflate := some compression_level
        records := vs } (-(vs.length : Int)) v
      (by simp) (by simp) (by omega)
      (by simp only [List.headD_cons]; omega) hget2
    dsimp only [List.headD_cons] at hres
    rw [htn] at hres
    exact hres

/-- C1 witness: two records appended to a fresh record-shape-[2] dataset
read back in order, and negative indices -1 and -2 hit the last and
first record. -/
theorem chunked_append_roundtrip_witness :
    ∃ ds : DataSet Nat,
      write_all Nat ([2] : List Nat).length (create_dataset Nat [2] none)
          [[1, 2], [3, 4]] =
        Except.ok ds ∧
      (∀ i : Nat, ∀ v, ([[1, 2], [3, 4]] : List (List Nat)).get? i = some v →
        read_dataset Nat ([2] : List Nat).length ds (i : Int) =
          Except.ok (i, v)) ∧
      (∀ v, ([[1, 2], [3, 4]] : List (List Nat)).get?
          (([[1, 2], [3, 4]] : List (List Nat)).length - 1) = some v →
        read_dataset Nat ([2] : List Nat).length ds (-1) =
          Except.ok (([[1, 2], [3, 4]] : List (List Nat)).length - 1, v)) ∧
      (∀ v, ([[1, 2], [3, 4]] : List (List Nat)).get? 0 = some v →
        read_dataset Nat ([2] : List Nat).length ds
            (-((([[1, 2], [3, 4]] : List (List Nat)).length : Nat) : Int)) =
          Except.ok (0, v)) :=
  chunked_append_roundtrip Nat [2] [[1, 2], [3, 4]] (by decide)

end H5xx
